import Mathlib

/-!
Shallow embedding of the influencer-feedback dashboard (`app.py`) and proofs
of the testable properties of its specification.

Modelling conventions:
* A row of the loaded CSV is a `Row`: profile identifier `perfil`, optional
  free text `experiencia`, numeric rating `nota` (modelled in `ℚ`), and the
  parsed `data` (date) column (opaque to every computation, kept as `Int`).
* The pretrained classifier (`sentiment_pipeline`) is an oracle
  `String → Except String String`: `.ok label` is a successful classification
  returning the star `label`; `.error e` models a raised exception.
* Python `needle in label` substring tests are `strIn`.
* `requests.get` + `raise_for_status` + `pd.read_csv` is an oracle
  `fetch : String → Except String (List Row)`; any raised exception is
  `.error e`.
* pandas `value_counts` builds keys in first-occurrence order and sorts by
  count descending (stable); `idxmax` returns the first index attaining the
  maximum; `groupby` sorts group keys ascending; `sort_values` descending by
  a column is the stable `mergeSort` with the corresponding comparator.
-/

namespace InfluencerApp

/-- One parsed CSV row of the feedback table (`df` in `app.py`). -/
structure Row where
  perfil : String
  experiencia : Option String
  nota : ℚ
  data : Int
deriving DecidableEq

/-- Result of one call of `analyze_sentiment`: the returned string and
whether `st.warning` was emitted during the call. -/
structure SentResult where
  value : String
  warned : Bool
deriving DecidableEq

/-- Python `needle.isPrefix hay` on character lists: does `hay` start with
`needle`. -/
def startsWithSub : List Char → List Char → Bool
  | [], _ => true
  | _ :: _, [] => false
  | a :: as, b :: bs => a == b && startsWithSub as bs

/-- Occurrence of `needle` somewhere in `hay` (character lists). -/
def hasSub (needle : List Char) : List Char → Bool
  | [] => startsWithSub needle []
  | c :: t => startsWithSub needle (c :: t) || hasSub needle t

/-- Python `needle in hay` for strings. -/
def strIn (needle hay : String) : Bool :=
  hasSub needle.data hay.data

/-- Embedding of `analyze_sentiment` from `app.py`: run the classifier
oracle on the text; on success map the star label through the
`1 star`/`2 stars` → `🔴 RUIM`, `3 stars` → `🟡 NEUTRO`, otherwise
`🟢 BOM` policy; on a raised exception warn and return `"NEUTRAL"`. -/
def analyze_sentiment (pipe : String → Except String String) (text : String) :
    SentResult :=
  match pipe text with
  | .ok label =>
    if strIn "1 star" label || strIn "2 stars" label then ⟨"🔴 RUIM", false⟩
    else if strIn "3 stars" label then ⟨"🟡 NEUTRO", false⟩
    else ⟨"🟢 BOM", false⟩
  | .error _ => ⟨"NEUTRAL", true⟩

/-- URL built by `load_data`: Python f-string interpolation renders a missing
environment variable (`None`) as the text `"None"`. -/
def buildUrl (fileId : Option String) : String :=
  "https://drive.google.com/uc?id=" ++ fileId.getD "None"

/-- Embedding of `load_data` from `app.py`: build the download URL from the
environment-supplied file id and run the fetch-and-parse oracle; on success
return the parsed rows with no error message, on any raised exception return
the empty table together with the `st.error` message. -/
def load_data (fileId : Option String)
    (fetch : String → Except String (List Row)) : List Row × Option String :=
  match fetch (buildUrl fileId) with
  | .ok rows => (rows, none)
  | .error e => ([], some ("Error loading data: " ++ e))

/-- Keys of a list in first-occurrence order (the index-construction order of
pandas hash-based grouping for object columns). -/
def keysIn (l : List String) : List String :=
  l.foldl (fun acc x => if x ∈ acc then acc else acc ++ [x]) []

/-- Comparator used to model `value_counts` sorting: count descending. -/
def count_le (a b : String × Nat) : Bool :=
  decide (b.2 ≤ a.2)

/-- Comparator for ascending group keys (pandas `groupby` sorts keys). -/
def key_le (a b : String) : Bool :=
  decide (a ≤ b)

/-- pandas `Series.value_counts()`: pair each key (first-occurrence order)
with its count, then sort by count descending (stable). -/
def value_counts (l : List String) : List (String × Nat) :=
  ((keysIn l).map (fun k => (k, l.count k))).mergeSort count_le

/-- Embedding of `frequent_profiles` in `app.py`:
`profile_counts[profile_counts > 1].index.tolist()` for
`profile_counts = df['perfil'].value_counts()`. -/
def frequent_profiles (df : List Row) : List String :=
  ((value_counts (df.map (·.perfil))).filter (fun kv => decide (1 < kv.2))).map (·.1)

/-- One row of the per-profile working frame `profile_data`, after the
`fillna` of `experiencia` and with the derived sentiment column. -/
structure PRow where
  perfil : String
  experiencia : String
  nota : ℚ
  data : Int
  sentiment_experiencia : String
deriving DecidableEq

/-- Embedding of the `profile_data` pipeline in `app.py`: filter the loaded
table to the selected profile (on a copy), replace a missing `experiencia`
by the placeholder `"No content"`, and add the sentiment column computed by
`analyze_sentiment` on the filled text. -/
def profile_data (pipe : String → Except String String) (df : List Row)
    (p : String) : List PRow :=
  (df.filter (fun r => r.perfil == p)).map (fun r =>
    let text := r.experiencia.getD "No content"
    ⟨r.perfil, text, r.nota, r.data, (analyze_sentiment pipe text).value⟩)

/-- pandas `Series.idxmax()`: index of the first entry attaining the maximum
value (`none` on an empty series, where pandas raises). -/
def idxmax (s : List (String × Nat)) : Option String :=
  match s with
  | [] => none
  | x :: xs => some ((xs.foldl (fun best kv => if best.2 < kv.2 then kv else best) x).1)

/-- Embedding of `sentiment_summary` in `app.py`:
`profile_data['sentiment_experiencia'].value_counts().idxmax()`. -/
def sentiment_summary (sentiments : List String) : Option String :=
  idxmax (value_counts sentiments)

/-- Embedding of `average_rating` in `app.py`: mean of the `nota` column. -/
def average_rating (pd : List PRow) : ℚ :=
  (pd.map (·.nota)).sum / pd.length

/-- One row of the ranking table. -/
structure RankRow where
  perfil : String
  avg_nota : ℚ
  total_entries : Nat
deriving DecidableEq

/-- Comparator used to model `sort_values(by='avg_nota', ascending=False)`:
average rating descending. -/
def rank_le (a b : RankRow) : Bool :=
  decide (b.avg_nota ≤ a.avg_nota)

/-- Mean of the `nota` column over one `groupby` group. -/
def groupMean (rows : List Row) : ℚ :=
  (rows.map (·.nota)).sum / rows.length

/-- Stage one of `ranking_df`: `df[df['perfil'].isin(frequent_profiles)]`. -/
def ranking_filtered (df : List Row) : List Row :=
  df.filter (fun r => decide (r.perfil ∈ frequent_profiles df))

/-- Stage two of `ranking_df`: the group keys of `groupby('perfil')`,
sorted ascending as pandas does by default. -/
def ranking_groups (df : List Row) : List String :=
  (keysIn ((ranking_filtered df).map (·.perfil))).mergeSort key_le

/-- Stage three of `ranking_df`: per-group aggregation
`agg(avg_nota=('nota','mean'), total_entries=('nota','size'))`. -/
def ranking_rows (df : List Row) : List RankRow :=
  (ranking_groups df).map (fun k =>
    ⟨k, groupMean ((ranking_filtered df).filter (fun r => r.perfil == k)),
      ((ranking_filtered df).filter (fun r => r.perfil == k)).length⟩)

/-- Embedding of `ranking_df` in `app.py`: restrict to frequent profiles,
group by profile with mean rating and entry count, sort by mean rating
descending. -/
def ranking_df (df : List Row) : List RankRow :=
  (ranking_rows df).mergeSort rank_le

/-- Rendered user interface of one script run: which widgets were emitted.
`panels` holds the three metric columns (sentiment summary, average rating,
entry count) when a profile is selected. -/
structure UI where
  warning : Bool
  selector : Option (List String)
  panels : Option (Option String × ℚ × Nat)
  ranking : Option (List RankRow)

/-- Embedding of the top-level script of `app.py` after `load_data`: on an
empty table emit only the warning; otherwise emit the selector over
`frequent_profiles`, the three metric panels when a profile is selected,
and the ranking table. -/
def renderApp (pipe : String → Except String String) (df : List Row)
    (selected : Option String) : UI :=
  if df.isEmpty then
    { warning := true, selector := none, panels := none, ranking := none }
  else
    { warning := false
      selector := some (frequent_profiles df)
      panels :=
        match selected with
        | some p =>
          let pd := profile_data pipe df p
          some (sentiment_summary (pd.map (·.sentiment_experiencia)),
            average_rating pd, pd.length)
        | none => none
      ranking := some (ranking_df df) }

/-- Columns of the loaded CSV table (the ones `app.py` reads; the derived
`sentiment_experiencia` column is never part of the table returned by
`load_data`). -/
def loaded_columns : List String :=
  ["perfil", "experiencia", "nota", "data"]

/-- The guard `'sentiment_experiencia' not in profile_data.columns` of
`app.py`: `profile_data` is a fresh copy of a slice of the loaded table on
every render, so its columns are exactly `loaded_columns`. -/
def classify_guard : Bool :=
  !(loaded_columns.contains "sentiment_experiencia")

/-- Number of classifier invocations one render performs for the selected
profile: one per matching row when the guard passes, none otherwise. -/
def classifier_calls_per_render (df : List Row) (p : String) : Nat :=
  if classify_guard then (df.filter (fun r => r.perfil == p)).length else 0

/-- Classifier invocations across two successive renders of the same
selected profile within one session (the loaded table is cached, the
per-profile frame is rebuilt each run). -/
def classifier_calls_two_renders (df : List Row) (p : String) : Nat :=
  classifier_calls_per_render df p + classifier_calls_per_render df p

/-- Does `k` attain the maximal multiplicity among the values of `l`. -/
def is_max_key (l : List String) (k : String) : Bool :=
  (keysIn l).all (fun k2 => decide (l.count k2 ≤ l.count k))

/-- Modelled from the spec: the majority bucket is the mode of the per-row
buckets, ties broken by the bucket first encountered in iteration order.
Stated directly from the spec wording, to be compared with
`sentiment_summary` (which embeds the code). -/
def spec_mode (l : List String) : Option String :=
  ((keysIn l).filter (is_max_key l)).head?

/-- Classifier oracle that always answers the label `3 stars`. -/
def pipeOk3 : String → Except String String :=
  fun _ => Except.ok "3 stars"

/-- Classifier oracle that always raises. -/
def pipeFail : String → Except String String :=
  fun _ => Except.error "boom"

/-- Fetch oracle that always raises (an HTTP error, say). -/
def fetchFail : String → Except String (List Row) :=
  fun _ => Except.error "404 Client Error"

/-- Sample row of profile `a` with text present. -/
def rowA1 : Row := ⟨"a", some "otimo", 5, 0⟩

/-- Sample row of profile `a` with missing text. -/
def rowA2 : Row := ⟨"a", none, 3, 1⟩

/-- Sample row of profile `b`, its only feedback. -/
def rowB : Row := ⟨"b", some "ruim", 1, 2⟩

/-- Sample table: two feedbacks for `a`, one for `b`. -/
def dfSmall : List Row := [rowA1, rowA2, rowB]

/-- Sample table with a single row. -/
def df_single : List Row := [rowA1]

/-- The processed row that `profile_data` produces from `rowA2`. -/
def prA2 : PRow := ⟨"a", "No content", 3, 1, "🟡 NEUTRO"⟩

/-- C1: for every classifier output label, `analyze_sentiment` maps the
labels `1 star` and `2 stars` to the BAD bucket `🔴 RUIM`, `3 stars` to the
NEUTRAL bucket `🟡 NEUTRO`, and `4 stars` and `5 stars` to the GOOD bucket
`🟢 BOM`, whatever the input text. -/
theorem analyze_sentiment_star_mapping (t : String) :
    (analyze_sentiment (fun _ => Except.ok "1 star") t).value = "🔴 RUIM" ∧
    (analyze_sentiment (fun _ => Except.ok "2 stars") t).value = "🔴 RUIM" ∧
    (analyze_sentiment (fun _ => Except.ok "3 stars") t).value = "🟡 NEUTRO" ∧
    (analyze_sentiment (fun _ => Except.ok "4 stars") t).value = "🟢 BOM" ∧
    (analyze_sentiment (fun _ => Except.ok "5 stars") t).value = "🟢 BOM" :=
  ⟨rfl, rfl, rfl, rfl, rfl⟩

/-- C4: whenever the fetch-and-parse oracle raises (network error, bad HTTP
status, CSV or date parse error, missing environment identifier),
`load_data` returns the empty table together with a user-visible error
message instead of propagating the exception. -/
theorem load_data_failure_empty (fileId : Option String)
    (fetch : String → Except String (List Row)) (e : String)
    (h : fetch (buildUrl fileId) = Except.error e) :
    load_data fileId fetch = ([], some ("Error loading data: " ++ e)) := by
  unfold load_data
  rw [h]

/-- Witness for C4: a fetch raising an HTTP error yields the empty table and
the visible error message. -/
theorem load_data_failure_empty_witness :
    load_data none fetchFail = ([], some ("Error loading data: " ++ "404 Client Error")) :=
  load_data_failure_empty none fetchFail "404 Client Error" rfl

/-- C5: whenever the classifier raises, `analyze_sentiment` warns the user
and returns the bare string `NEUTRAL`, which differs textually from each of
the three normal buckets (including the normal NEUTRAL bucket `🟡 NEUTRO`),
and the call returns normally rather than aborting the render. -/
theorem analyze_sentiment_exception_fallback (pipe : String → Except String String)
    (text e : String) (h : pipe text = Except.error e) :
    analyze_sentiment pipe text = ⟨"NEUTRAL", true⟩ ∧
    "NEUTRAL" ≠ "🔴 RUIM" ∧ "NEUTRAL" ≠ "🟡 NEUTRO" ∧ "NEUTRAL" ≠ "🟢 BOM" := by
  refine ⟨?_, by decide, by decide, by decide⟩
  unfold analyze_sentiment
  rw [h]

/-- Witness for C5: a raising classifier produces the warned `NEUTRAL`
fallback on a concrete text. -/
theorem analyze_sentiment_exception_fallback_witness :
    analyze_sentiment pipeFail "qualquer" = ⟨"NEUTRAL", true⟩ ∧
    "NEUTRAL" ≠ "🔴 RUIM" ∧ "NEUTRAL" ≠ "🟡 NEUTRO" ∧ "NEUTRAL" ≠ "🟢 BOM" :=
  analyze_sentiment_exception_fallback pipeFail "qualquer" "boom" rfl

/-- C9: on an empty loaded table the app renders only the warning: no
profile selector, no summary panels, no ranking table. -/
theorem renderApp_empty_warning (pipe : String → Except String String)
    (selected : Option String) :
    renderApp pipe [] selected =
      { warning := true, selector := none, panels := none, ranking := none } :=
  rfl

/-- C8 (code evaluated at the failing input): the guard
`'sentiment_experiencia' not in profile_data.columns` always passes, because
`profile_data` is rebuilt from the loaded table on every render and the
loaded table never carries the derived column; hence a second render of the
same selected profile classifies every row again (two calls in total for a
one-row profile) instead of performing no further classifier call. -/
theorem second_render_reclassifies :
    classify_guard = true ∧
    classifier_calls_per_render df_single "a" = 1 ∧
    classifier_calls_two_renders df_single "a" = 2 := by
  decide

/-- Membership in the key-collecting fold: an element is in the result iff
it is in the accumulator or in the traversed list. -/
theorem mem_foldl_keys (l : List String) (acc : List String) (x : String) :
    x ∈ l.foldl (fun acc y => if y ∈ acc then acc else acc ++ [y]) acc ↔
      x ∈ acc ∨ x ∈ l := by
  induction l generalizing acc with
  | nil => simp
  | cons a t ih =>
    simp only [List.foldl_cons]
    by_cases h : a ∈ acc
    · rw [if_pos h, ih]
      constructor
      · rintro (hx | hx)
        · exact Or.inl hx
        · exact Or.inr (List.mem_cons_of_mem a hx)
      · rintro (hx | hx)
        · exact Or.inl hx
        · rcases List.mem_cons.mp hx with rfl | hx
          · exact Or.inl h
          · exact Or.inr hx
    · rw [if_neg h, ih]
      simp only [List.mem_append, List.mem_singleton, List.mem_cons]
      tauto

/-- The key-collecting fold preserves freedom from duplicates. -/
theorem nodup_foldl_keys (l : List String) (acc : List String)
    (hacc : acc.Nodup) :
    (l.foldl (fun acc y => if y ∈ acc then acc else acc ++ [y]) acc).Nodup := by
  induction l generalizing acc with
  | nil => simpa using hacc
  | cons a t ih =>
    simp only [List.foldl_cons]
    by_cases h : a ∈ acc
    · rw [if_pos h]; exact ih acc hacc
    · rw [if_neg h]
      refine ih _ (List.nodup_append.mpr ⟨hacc, List.nodup_singleton a, ?_⟩)
      intro x hx hxa
      exact h ((List.mem_singleton.mp hxa) ▸ hx)

/-- Membership in `keysIn`. -/
theorem mem_keysIn {l : List String} {x : String} : x ∈ keysIn l ↔ x ∈ l := by
  unfold keysIn
  rw [mem_foldl_keys]
  simp

/-- The keys collected by `keysIn` are pairwise distinct. -/
theorem keysIn_nodup (l : List String) : (keysIn l).Nodup :=
  nodup_foldl_keys l [] List.nodup_nil

/-- Membership in `value_counts`: exactly the pairs of an occurring key with
its multiplicity. -/
theorem mem_value_counts {l : List String} {kv : String × Nat} :
    kv ∈ value_counts l ↔ kv.1 ∈ l ∧ kv.2 = l.count kv.1 := by
  unfold value_counts
  rw [List.mem_mergeSort, List.mem_map]
  constructor
  · rintro ⟨k, hk, rfl⟩
    exact ⟨mem_keysIn.mp hk, rfl⟩
  · rintro ⟨h1, h2⟩
    exact ⟨kv.1, mem_keysIn.mpr h1, by rw [← h2]⟩

/-- Membership in the selector options: exactly the profiles occurring more
than once in the loaded table. -/
theorem mem_frequent_profiles {df : List Row} {p : String} :
    p ∈ frequent_profiles df ↔ 1 < (df.map (·.perfil)).count p := by
  unfold frequent_profiles
  rw [List.mem_map]
  constructor
  · rintro ⟨kv, hkv, rfl⟩
    simp only [List.mem_filter, decide_eq_true_eq] at hkv
    obtain ⟨hm, hgt⟩ := hkv
    rw [mem_value_counts] at hm
    exact hm.2 ▸ hgt
  · intro h
    refine ⟨(p, (df.map (·.perfil)).count p), ?_, rfl⟩
    simp only [List.mem_filter, decide_eq_true_eq]
    refine ⟨mem_value_counts.mpr ⟨?_, rfl⟩, h⟩
    exact List.count_pos_iff.mp (Nat.lt_of_lt_of_le Nat.zero_lt_one h.le)

/-- The profile column of the aggregated ranking rows is the list of group
keys. -/
theorem ranking_rows_keys (df : List Row) :
    (ranking_rows df).map (·.perfil) = ranking_groups df := by
  unfold ranking_rows
  rw [List.map_map]
  exact List.map_id'' (fun x => rfl) _

/-- Membership in the ranking table: exactly the frequent profiles. -/
theorem mem_ranking_keys {df : List Row} {p : String} :
    p ∈ (ranking_df df).map (·.perfil) ↔ p ∈ frequent_profiles df := by
  unfold ranking_df
  constructor
  · intro hp
    rw [List.mem_map] at hp
    obtain ⟨rr, hrr, rfl⟩ := hp
    rw [List.mem_mergeSort] at hrr
    have hkey : rr.perfil ∈ (ranking_rows df).map (·.perfil) :=
      List.mem_map_of_mem _ hrr
    rw [ranking_rows_keys] at hkey
    unfold ranking_groups at hkey
    rw [List.mem_mergeSort, mem_keysIn, List.mem_map] at hkey
    obtain ⟨r, hr, hpr⟩ := hkey
    unfold ranking_filtered at hr
    simp only [List.mem_filter, decide_eq_true_eq] at hr
    exact hpr ▸ hr.2
  · intro hp
    have hcount := mem_frequent_profiles.mp hp
    have hmem : p ∈ df.map (·.perfil) := List.count_pos_iff.mp (by omega)
    rw [List.mem_map] at hmem
    obtain ⟨r, hr, hpr⟩ := hmem
    have hfil : r ∈ ranking_filtered df := by
      unfold ranking_filtered
      simp only [List.mem_filter, decide_eq_true_eq]
      exact ⟨hr, hpr ▸ hp⟩
    have hkey : p ∈ ranking_groups df := by
      unfold ranking_groups
      rw [List.mem_mergeSort, mem_keysIn, List.mem_map]
      exact ⟨r, hfil, hpr⟩
    have hkey2 : p ∈ (ranking_rows df).map (·.perfil) := by
      rw [ranking_rows_keys]; exact hkey
    rw [List.mem_map] at hkey2 ⊢
    obtain ⟨rr, hrr, hrp⟩ := hkey2
    exact ⟨rr, List.mem_mergeSort.mpr hrr, hrp⟩

/-- C2: in a non-empty feedback table, a profile with exactly one feedback
row appears neither in the selector options nor in the ranking table, and a
profile with two or more rows appears in both. -/
theorem selector_and_ranking_eligibility (df : List Row) (p : String)
    (hne : df ≠ []) :
    ((df.map (·.perfil)).count p = 1 →
      p ∉ frequent_profiles df ∧ p ∉ (ranking_df df).map (·.perfil)) ∧
    (2 ≤ (df.map (·.perfil)).count p →
      p ∈ frequent_profiles df ∧ p ∈ (ranking_df df).map (·.perfil)) := by
  constructor
  · intro h1
    constructor
    · intro hmem
      have := mem_frequent_profiles.mp hmem
      omega
    · intro hmem
      have := mem_frequent_profiles.mp (mem_ranking_keys.mp hmem)
      omega
  · intro h2
    have hf : p ∈ frequent_profiles df := mem_frequent_profiles.mpr (by omega)
    exact ⟨hf, mem_ranking_keys.mpr hf⟩

/-- Witness for C2: in the three-row sample table, profile `b` (one row)
is excluded and profile `a` would be included. -/
theorem selector_and_ranking_eligibility_witness :
    dfSmall ≠ [] ∧
    (((dfSmall.map (·.perfil)).count "b" = 1 →
      "b" ∉ frequent_profiles dfSmall ∧
        "b" ∉ (ranking_df dfSmall).map (·.perfil)) ∧
    (2 ≤ (dfSmall.map (·.perfil)).count "b" →
      "b" ∈ frequent_profiles dfSmall ∧
        "b" ∈ (ranking_df dfSmall).map (·.perfil))) :=
  ⟨by decide, selector_and_ranking_eligibility dfSmall "b" (by decide)⟩

/-- Transitivity of the ranking comparator. -/
theorem rank_le_trans :
    ∀ a b c : RankRow, rank_le a b → rank_le b c → rank_le a c := by
  intro a b c hab hbc
  simp only [rank_le, decide_eq_true_eq] at hab hbc ⊢
  exact le_trans hbc hab

/-- Totality of the ranking comparator. -/
theorem rank_le_total : ∀ a b : RankRow, rank_le a b || rank_le b a := by
  intro a b
  simp only [rank_le, Bool.or_eq_true, decide_eq_true_eq]
  exact le_total b.avg_nota a.avg_nota

/-- C3: the rows of the ranking table are ordered by mean rating in
non-increasing order; every adjacent pair satisfies earlier ≥ later. -/
theorem ranking_df_sorted (df : List Row) :
    (ranking_df df).Chain' (fun a b => b.avg_nota ≤ a.avg_nota) := by
  unfold ranking_df
  exact List.Pairwise.chain'
    ((List.sorted_mergeSort rank_le_trans rank_le_total (ranking_rows df)).imp
      (fun hab => of_decide_eq_true hab))

/-- C6: every row of the per-profile frame comes from a row of the loaded
table for the selected profile; its text is the original text when present
and the placeholder `No content` when the original is missing, and the
sentiment column is the classifier applied to that (always non-null)
string. -/
theorem profile_data_text_filled (pipe : String → Except String String)
    (df : List Row) (p : String) (pr : PRow)
    (hpr : pr ∈ profile_data pipe df p) :
    ∃ r ∈ df, r.perfil = p ∧
      pr.experiencia = r.experiencia.getD "No content" ∧
      (r.experiencia = none → pr.experiencia = "No content") ∧
      pr.sentiment_experiencia = (analyze_sentiment pipe pr.experiencia).value := by
  unfold profile_data at hpr
  rw [List.mem_map] at hpr
  obtain ⟨r, hr, rfl⟩ := hpr
  simp only [List.mem_filter] at hr
  obtain ⟨hrdf, hrp⟩ := hr
  refine ⟨r, hrdf, eq_of_beq hrp, rfl, ?_, rfl⟩
  intro hnone
  rw [hnone]
  rfl

/-- Witness for C6: in the sample table, the row of profile `a` with
missing text is classified on the placeholder. -/
theorem profile_data_text_filled_witness :
    prA2 ∈ profile_data pipeOk3 dfSmall "a" ∧
    ∃ r ∈ dfSmall, r.perfil = "a" ∧
      prA2.experiencia = r.experiencia.getD "No content" ∧
      (r.experiencia = none → prA2.experiencia = "No content") ∧
      prA2.sentiment_experiencia =
        (analyze_sentiment pipeOk3 prA2.experiencia).value :=
  ⟨by decide, profile_data_text_filled pipeOk3 dfSmall "a" prA2 (by decide)⟩

/-- Transitivity of the count-descending comparator. -/
theorem count_le_trans :
    ∀ a b c : String × Nat, count_le a b → count_le b c → count_le a c := by
  intro a b c hab hbc
  simp only [count_le, decide_eq_true_eq] at hab hbc ⊢
  omega

/-- Totality of the count-descending comparator. -/
theorem count_le_total : ∀ a b : String × Nat, count_le a b || count_le b a := by
  intro a b
  simp only [count_le, Bool.or_eq_true, decide_eq_true_eq]
  omega

/-- The argmax fold of `idxmax` keeps its seed when no later value is
strictly greater. -/
theorem idxmax_foldl_keep (t : List (String × Nat)) (x : String × Nat)
    (h : ∀ kv ∈ t, kv.2 ≤ x.2) :
    t.foldl (fun best kv => if best.2 < kv.2 then kv else best) x = x := by
  induction t with
  | nil => rfl
  | cons a r ih =>
    simp only [List.foldl_cons]
    rw [if_neg (Nat.not_lt.mpr (h a (List.mem_cons_self a r)))]
    exact ih (fun kv hkv => h kv (List.mem_cons_of_mem a hkv))

/-- On a series whose first entry bounds the rest, `idxmax` is the first
index. -/
theorem idxmax_sorted_head (h : String × Nat) (t : List (String × Nat))
    (hp : ∀ kv ∈ t, kv.2 ≤ h.2) : idxmax (h :: t) = some h.1 := by
  show some ((t.foldl (fun best kv => if best.2 < kv.2 then kv else best) h).1) = some h.1
  rw [idxmax_foldl_keep t h hp]

/-- The `value_counts` series has pairwise distinct entries. -/
theorem value_counts_nodup (l : List String) : (value_counts l).Nodup := by
  unfold value_counts
  refine (List.mergeSort_perm _ count_le).nodup_iff.mpr ?_
  exact List.Nodup.map (fun k1 k2 hk => congrArg Prod.fst hk) (keysIn_nodup l)

/-- A two-element sublist of a cons either starts at the head or lies in
the tail. -/
theorem pair_sublist_cons_split {α : Type} {a b x : α} {t : List α}
    (hsub : List.Sublist [a, b] (x :: t)) :
    (a = x ∧ List.Sublist [b] t) ∨ List.Sublist [a, b] t := by
  cases hsub with
  | cons _ h2 => exact Or.inr h2
  | cons₂ _ h2 => exact Or.inl ⟨rfl, h2⟩

/-- Core of the refinement for C7: when the sorted `value_counts` series is
nonempty, its head key is exactly the spec-side mode (first key, in
first-occurrence order, attaining the maximal count). -/
theorem head_mergeSort_first_max (l : List String) (h : String × Nat)
    (t : List (String × Nat))
    (hst : ((keysIn l).map (fun k => (k, l.count k))).mergeSort count_le = h :: t) :
    spec_mode l = some h.1 := by
  have hperm := List.mergeSort_perm ((keysIn l).map (fun k => (k, l.count k))) count_le
  rw [hst] at hperm
  have hsorted := List.sorted_mergeSort count_le_trans count_le_total
      ((keysIn l).map (fun k => (k, l.count k)))
  rw [hst] at hsorted
  have hnodup : (h :: t).Nodup :=
    hperm.nodup_iff.mpr
      (List.Nodup.map (fun k1 k2 hk => congrArg Prod.fst hk) (keysIn_nodup l))
  have hmem_h : h ∈ (keysIn l).map (fun k => (k, l.count k)) :=
    hperm.subset (List.mem_cons_self h t)
  obtain ⟨kh, hkh, hfk⟩ := List.mem_map.mp hmem_h
  have hk1 : kh = h.1 := congrArg Prod.fst hfk
  have hh_pair : (h.1, l.count h.1) = h := by rw [← hk1]; exact hfk
  have hh_keys : h.1 ∈ keysIn l := hk1 ▸ hkh
  have hh2 : l.count h.1 = h.2 := congrArg Prod.snd hh_pair
  have hmax : ∀ k ∈ keysIn l, l.count k ≤ l.count h.1 := by
    intro k hk
    have hkv : (k, l.count k) ∈ (keysIn l).map (fun k => (k, l.count k)) :=
      List.mem_map.mpr ⟨k, hk, rfl⟩
    have hins := hperm.symm.subset hkv
    rcases List.mem_cons.mp hins with heq | hmemt
    · have hk1' : k = h.1 := congrArg Prod.fst heq
      rw [hk1']
    · have hcle := (List.pairwise_cons.mp hsorted).1 _ hmemt
      have hle : l.count k ≤ h.2 := by simpa [count_le] using hcle
      omega
  have hPh : is_max_key l h.1 = true :=
    List.all_eq_true.mpr (fun k2 hk2 => decide_eq_true (hmax k2 hk2))
  have hhf : h.1 ∈ (keysIn l).filter (is_max_key l) :=
    List.mem_filter.mpr ⟨hh_keys, hPh⟩
  obtain ⟨m, rest, hfeq⟩ := List.exists_cons_of_ne_nil (List.ne_nil_of_mem hhf)
  have hspec : spec_mode l = some m := by
    unfold spec_mode
    rw [hfeq]
    rfl
  by_cases he : h.1 = m
  · rw [hspec, he]
  · exfalso
    have hm_mem : m ∈ (keysIn l).filter (is_max_key l) := by
      rw [hfeq]; exact List.mem_cons_self m rest
    rw [List.mem_filter] at hm_mem
    obtain ⟨hm_keys, hPm⟩ := hm_mem
    have hmmax : ∀ k ∈ keysIn l, l.count k ≤ l.count m := by
      intro k hk
      exact of_decide_eq_true (List.all_eq_true.mp hPm k hk)
    have hh_rest : h.1 ∈ rest := by
      have hhmr : h.1 ∈ m :: rest := by rw [← hfeq]; exact hhf
      rcases List.mem_cons.mp hhmr with h1 | h2
      · exact absurd h1 he
      · exact h2
    have hsub_keys : List.Sublist [m, h.1] (keysIn l) := by
      have h1 : List.Sublist [m, h.1] (m :: rest) :=
        List.Sublist.cons₂ m (List.singleton_sublist.mpr hh_rest)
      rw [← hfeq] at h1
      exact h1.trans (List.filter_sublist _)
    have hsub_pairs : List.Sublist [(m, l.count m), (h.1, l.count h.1)]
        ((keysIn l).map (fun k => (k, l.count k))) := by
      have hmapped := hsub_keys.map (fun k => (k, l.count k))
      simpa using hmapped
    have hab : count_le (m, l.count m) (h.1, l.count h.1) := by
      simp only [count_le, decide_eq_true_eq]
      exact hmmax h.1 hh_keys
    have hss := List.pair_sublist_mergeSort count_le_trans count_le_total hab hsub_pairs
    rw [hst] at hss
    rcases pair_sublist_cons_split hss with ⟨hax, _⟩ | hsub2
    · exact he ((congrArg Prod.fst hax).symm)
    · have hht : (h.1, l.count h.1) ∈ t := hsub2.subset (by simp)
      rw [hh_pair] at hht
      exact (List.nodup_cons.mp hnodup).1 hht

/-- Refinement lemma: `value_counts().idxmax()` (the code side) equals the
first-occurrence-tie-broken mode (the spec side) on every column. -/
theorem idxmax_value_counts_eq_spec_mode (l : List String) :
    sentiment_summary l = spec_mode l := by
  cases hst : ((keysIn l).map (fun k => (k, l.count k))).mergeSort count_le with
  | nil =>
    have hperm := List.mergeSort_perm ((keysIn l).map (fun k => (k, l.count k))) count_le
    rw [hst] at hperm
    have hpairs_nil : (keysIn l).map (fun k => (k, l.count k)) = [] := hperm.nil_eq.symm
    have hkeys : keysIn l = [] := List.map_eq_nil_iff.mp hpairs_nil
    unfold sentiment_summary value_counts
    rw [hst]
    unfold spec_mode
    rw [hkeys]
    rfl
  | cons h t =>
    have hsorted := List.sorted_mergeSort count_le_trans count_le_total
        ((keysIn l).map (fun k => (k, l.count k)))
    rw [hst] at hsorted
    have htail : ∀ kv ∈ t, kv.2 ≤ h.2 := by
      intro kv hkv
      have hcle := (List.pairwise_cons.mp hsorted).1 kv hkv
      simpa [count_le] using hcle
    have hsum : sentiment_summary l = some h.1 := by
      unfold sentiment_summary value_counts
      rw [hst]
      exact idxmax_sorted_head h t htail
    rw [hsum, head_mergeSort_first_max l h t hst]

/-- C7: for every selected profile of a non-empty table, the displayed
sentiment summary equals the mode of the per-row sentiment buckets, ties
broken in favour of the bucket first encountered in iteration order. -/
theorem sentiment_summary_is_mode (pipe : String → Except String String)
    (df : List Row) (p : String) (hne : df ≠ []) :
    (renderApp pipe df (some p)).panels =
      some (spec_mode ((profile_data pipe df p).map (·.sentiment_experiencia)),
        average_rating (profile_data pipe df p),
        (profile_data pipe df p).length) := by
  obtain ⟨a, t, rfl⟩ := List.exists_cons_of_ne_nil hne
  show some (sentiment_summary
        ((profile_data pipe (a :: t) p).map (·.sentiment_experiencia)),
      average_rating (profile_data pipe (a :: t) p),
      (profile_data pipe (a :: t) p).length) = _
  rw [idxmax_value_counts_eq_spec_mode]

/-- Witness for C7: the sample table rendered with profile `a` selected
shows the mode of the two classified rows. -/
theorem sentiment_summary_is_mode_witness :
    dfSmall ≠ [] ∧
    (renderApp pipeOk3 dfSmall (some "a")).panels =
      some (spec_mode ((profile_data pipeOk3 dfSmall "a").map (·.sentiment_experiencia)),
        average_rating (profile_data pipeOk3 dfSmall "a"),
        (profile_data pipeOk3 dfSmall "a").length) :=
  ⟨by decide, sentiment_summary_is_mode pipeOk3 dfSmall "a" (by decide)⟩

/-- The ranking pipeline never reads the free-text column: rewriting
`experiencia` arbitrarily leaves the selector options unchanged. -/
theorem frequent_profiles_ignores_experiencia (df : List Row)
    (f : Row → Option String) :
    frequent_profiles (df.map (fun r => { r with experiencia := f r })) =
      frequent_profiles df := by
  unfold frequent_profiles
  rw [List.map_map]
  rfl

/-- Rewriting `experiencia` commutes with the frequent-profile filter. -/
theorem ranking_filtered_ignores_experiencia (df : List Row)
    (f : Row → Option String) :
    ranking_filtered (df.map (fun r => { r with experiencia := f r })) =
      (ranking_filtered df).map (fun r => { r with experiencia := f r }) := by
  unfold ranking_filtered
  rw [frequent_profiles_ignores_experiencia, List.filter_map]
  rfl

/-- Rewriting `experiencia` leaves the group keys unchanged. -/
theorem ranking_groups_ignores_experiencia (df : List Row)
    (f : Row → Option String) :
    ranking_groups (df.map (fun r => { r with experiencia := f r })) =
      ranking_groups df := by
  unfold ranking_groups
  rw [ranking_filtered_ignores_experiencia, List.map_map]
  rfl

/-- Rewriting `experiencia` leaves the aggregated rows unchanged. -/
theorem ranking_rows_ignores_experiencia (df : List Row)
    (f : Row → Option String) :
    ranking_rows (df.map (fun r => { r with experiencia := f r })) =
      ranking_rows df := by
  unfold ranking_rows
  rw [ranking_groups_ignores_experiencia]
  refine List.map_congr_left (fun k _ => ?_)
  have hgrp : (ranking_filtered (df.map (fun r => { r with experiencia := f r }))).filter
        (fun r => r.perfil == k) =
      ((ranking_filtered df).filter (fun r => r.perfil == k)).map
        (fun r => { r with experiencia := f r }) := by
    rw [ranking_filtered_ignores_experiencia, List.filter_map]
    rfl
  rw [hgrp]
  have hmean : groupMean (((ranking_filtered df).filter (fun r => r.perfil == k)).map
        (fun r => { r with experiencia := f r })) =
      groupMean ((ranking_filtered df).filter (fun r => r.perfil == k)) := by
    unfold groupMean
    rw [List.map_map, List.length_map]
    rfl
  rw [hmean, List.length_map]

/-- Rewriting `experiencia` leaves the whole ranking table unchanged. -/
theorem ranking_df_ignores_experiencia (df : List Row)
    (f : Row → Option String) :
    ranking_df (df.map (fun r => { r with experiencia := f r })) =
      ranking_df df := by
  unfold ranking_df
  rw [ranking_rows_ignores_experiencia]

/-- C10: the per-profile processing leaves the loaded table unchanged: the
rendered ranking is computed from the original table, and any rewrite of
the free-text field (in particular the placeholder fill the profile view
performs on its copy) leaves the ranking table identical. -/
theorem ranking_from_original_table (pipe : String → Except String String)
    (df : List Row) (p : String) (f : Row → Option String) (hne : df ≠ []) :
    (renderApp pipe df (some p)).ranking = some (ranking_df df) ∧
    ranking_df (df.map (fun r => { r with experiencia := f r })) =
      ranking_df df := by
  obtain ⟨a, t, rfl⟩ := List.exists_cons_of_ne_nil hne
  exact ⟨rfl, ranking_df_ignores_experiencia (a :: t) f⟩

/-- Witness for C10: on the sample table, rendering profile `a` keeps the
ranking of the original table even when every text is blanked. -/
theorem ranking_from_original_table_witness :
    (renderApp pipeOk3 dfSmall (some "a")).ranking = some (ranking_df dfSmall) ∧
    ranking_df (dfSmall.map (fun r => { r with experiencia := (fun _ => none) r })) =
      ranking_df dfSmall :=
  ranking_from_original_table pipeOk3 dfSmall "a" (fun _ => none) (by decide)

end InfluencerApp
